import Mathlib

/-!
Shallow embedding of the wiley-tdm-api-prototype batch scripts:
`download_articles.py`, `apply_gemini.py`, `aggregate_gemini_out.py`.

External effects (HTTP responses, the filesystem, the generative-model call,
raised exceptions) are passed in as explicit behaviour functions; machinery
such as logging and the final `print` calls is modelled as lists of emitted
events and report lines.
-/

namespace DL

/-- `_doi_to_filename` (download_articles.py, line 58):
`doi.replace("/", "_")`.  The pattern is the single character `/`, so the
replacement is a character-wise map. -/
def doiToFilename (doi : String) : String :=
  String.mk (doi.data.map (fun c => if c = '/' then '_' else c))

/-- Expected output location of a DOI inside `out_dir`
(`f"{_doi_to_filename(doi)}.pdf"`, lines 102 and 193). -/
def outputFileName (doi : String) : String := doiToFilename doi ++ ".pdf"

/-- Observable behaviour of one `download_article` call (lines 84-112):
the Wiley request returns 200 and the write succeeds (`success`, function
returns `True`), the request returns non-200 (`failure`, function returns
`False`), or any exception escapes the call, e.g. a network error from
`requests.get` or an `OSError` from the file write (`exn`). -/
inductive DLRes
  | success
  | failure
  | exn
deriving DecidableEq

/-- Log records written by the script, one per audited event. -/
inductive DLLog
  | successLog (doi : String)
  | failedLog (doi : String)
  | exnLog (doi : String)
deriving DecidableEq

/-- The DOI an audit record is about. -/
def evDoi : DLLog → String
  | .successLog d => d
  | .failedLog d => d
  | .exnLog d => d

/-- `download_article` as seen from `main`'s loop: `some b` means the call
returned the boolean `b`, `none` means it raised. -/
def download_article (beh : String → DLRes) (doi : String) : Option Bool :=
  match beh doi with
  | .success => some true
  | .failure => some false
  | .exn => none

/-- The dispatch loop of `main` (lines 200-208): dequeue a DOI from the head
of the FIFO queue, call `download_article` inside `try`, append its returned
boolean to `results` when it returns, and on an exception log it and append
nothing.  Returns the `results` list and the audit log, both in processing
order. -/
def dlLoop (beh : String → DLRes) : List String → List Bool × List DLLog
  | [] => ([], [])
  | d :: q =>
    let rest := dlLoop beh q
    match beh d with
    | .success => (true :: rest.1, .successLog d :: rest.2)
    | .failure => (false :: rest.1, .failedLog d :: rest.2)
    | .exn => (rest.1, .exnLog d :: rest.2)

/-- The enqueue phase of `main` (lines 192-196): walk the candidate DOIs in
order; a DOI whose expected output file exists is logged as skipped, any
other DOI is put on the queue.  Returns (queued, skipped) in input order. -/
def enqueuePhase (ex : String → Bool) (dois : List String) : List String × List String :=
  dois.foldl
    (fun acc d =>
      if ex (outputFileName d) then (acc.1, acc.2 ++ [d]) else (acc.1 ++ [d], acc.2))
    ([], [])

/-- One crossref item as consumed by `main`: its DOI and its `title` field
(absent, or a possibly-empty list of title strings; Python truthiness of
`article.get("title", None)` is false for `None` and for `[]`). -/
structure Article where
  doi : String
  title : Option (List String)

/-- Python truthiness of `article.get("title", None)` (lines 173 and 186). -/
def titled (a : Article) : Bool :=
  match a.title with
  | none => false
  | some ts => !ts.isEmpty

/-- The crossref response: HTTP status code and decoded item list. -/
structure CrossrefResp where
  status : Nat
  items : List Article

/-- `CROSS_REF_QUERY_FAILED.format(response=status_code)` (line 32). -/
def crossRefQueryFailed (s : Nat) : String :=
  "Failed to query crossref API. Status code: " ++ toString s

/-- `MSG_N_SUCCESSFUL.format(...)` (line 42). -/
def msgNSuccessful (n : Nat) : String :=
  toString n ++ " articles downloaded successfully."

/-- `MSG_N_UNSUCCESSFUL.format(...)` (line 43). -/
def msgNUnsuccessful (n : Nat) : String :=
  toString n ++ " articles failed to download."

/-- Observable state of one completed `main` run of download_articles.py. -/
structure DLRun where
  dois : List String
  queued : List String
  skipped : List String
  results : List Bool
  logs : List DLLog
  nSuccessful : Nat
  nFailed : Nat
  report : List String
deriving DecidableEq

/-- `main` of download_articles.py (lines 135-215).  `query_crossref`
(lines 62-81) raises `ValueError` when the crossref status is not 200, which
escapes `main`; this is the `.error` branch, carrying the formatted message.
Otherwise: the titled items give the candidate DOI list (lines 183-187), the
enqueue phase applies the completion filter (lines 192-196), the dispatch
loop drains the queue (lines 198-208), and the summary counts
`n_successful_articles = sum(results)` and
`n_failed_articles = len(results) - n_successful_articles` are printed, the
failure line only when the count is non-zero (lines 210-215).  The TSV
catalogue write (lines 169-181) has no bearing on dispatch and is omitted. -/
def download_main (resp : CrossrefResp) (ex : String → Bool) (beh : String → DLRes) :
    Except String DLRun :=
  if resp.status = 200 then
    let dois := (resp.items.filter titled).map Article.doi
    let qs := enqueuePhase ex dois
    let rl := dlLoop beh qs.1
    let nS := rl.1.countP (fun b => b)
    let nF := rl.1.length - nS
    .ok { dois := dois, queued := qs.1, skipped := qs.2, results := rl.1, logs := rl.2,
          nSuccessful := nS, nFailed := nF,
          report := [msgNSuccessful nS] ++ (if nF = 0 then [] else [msgNUnsuccessful nF]) }
  else
    .error (crossRefQueryFailed resp.status)

/-- Report lines printed by a run (none when the run aborted). -/
def reportOf : Except String DLRun → List String
  | .error _ => []
  | .ok r => r.report

/-- Candidate DOIs enumerated by a run (none when the run aborted). -/
def doisOf : Except String DLRun → List String
  | .error _ => []
  | .ok r => r.dois

/-- Skipped DOIs of a run. -/
def skippedOf : Except String DLRun → List String
  | .error _ => []
  | .ok r => r.skipped

/-- Per-item audit records of a run's dispatch loop. -/
def logsOf : Except String DLRun → List DLLog
  | .error _ => []
  | .ok r => r.logs

/-- DOIs actually dispatched to `download_article`, in processing order:
each loop iteration writes exactly one audit record for the DOI it
dispatched. -/
def attemptedOf (e : Except String DLRun) : List String :=
  (logsOf e).map evDoi

/-- Queued DOIs of a run. -/
def queuedOf : Except String DLRun → List String
  | .error _ => []
  | .ok r => r.queued

/-- Results list of a run's dispatch loop. -/
def resultsOf : Except String DLRun → List Bool
  | .error _ => []
  | .ok r => r.results

/-- Success count of a run's summary. -/
def nSuccessfulOf : Except String DLRun → Nat
  | .error _ => 0
  | .ok r => r.nSuccessful

/-- Failure count of a run's summary. -/
def nFailedOf : Except String DLRun → Nat
  | .error _ => 0
  | .ok r => r.nFailed

/-- Whether the run terminated normally (no uncaught exception escaped). -/
def okRun : Except String DLRun → Bool
  | .error _ => false
  | .ok _ => true

end DL

namespace AG

/-- One directory entry of `articles_dir` as consumed by apply_gemini.py:
`pathlib` splits a file name into `stem` and `suffix`. -/
structure PdfFile where
  stem : String
  suffix : String
deriving DecidableEq

/-- Events of one dispatch-loop iteration of apply_gemini.py `main`
(lines 110-124): `process_pdf` raised and was caught (`failureLogged`,
lines 115-118), or it returned and the unprotected output write raised
(`storeAbort`, lines 120-121 — this exception is NOT inside the `try` and
escapes the loop), or the item completed (`successLog`). -/
inductive AEvent
  | successLog
  | failureLogged
  | storeAbort
deriving DecidableEq

/-- The dispatch loop of apply_gemini.py `main` (lines 110-124): dequeue the
head of the FIFO queue; call `process_pdf` inside `try` (`pb a = none`
models a raised exception, `some text` the generated text); on exception,
log the error and `continue`; on return, open `out_dir / f"{stem}.txt"` and
write — this write is outside the `try`, so when it raises (`sb a = true`)
the exception propagates and the loop (and the whole run) stops there.
Returns the per-item trace in processing order, and the item at which the
run aborted, if any. -/
def applyLoop (pb : PdfFile → Option String) (sb : PdfFile → Bool) :
    List PdfFile → List (PdfFile × AEvent) × Option PdfFile
  | [] => ([], none)
  | a :: rest =>
    match pb a with
    | none =>
      let r := applyLoop pb sb rest
      ((a, .failureLogged) :: r.1, r.2)
    | some _ =>
      if sb a then ([(a, .storeAbort)], some a)
      else
        let r := applyLoop pb sb rest
        ((a, .successLog) :: r.1, r.2)

/-- Start-of-run log lines of apply_gemini.py `main` (lines 102-103):
`Found {n} articles.` and `{m} articles need to be processed.`  These are
the only records the enumeration/filter phase produces. -/
inductive AppLog
  | foundMsg (n : Nat)
  | needMsg (m : Nat)
deriving DecidableEq

/-- Observable state of one apply_gemini.py `main` run. -/
structure AGRun where
  found : List PdfFile
  articles : List PdfFile
  logs : List AppLog
  trace : List (PdfFile × AEvent)
  abortedAt : Option PdfFile
deriving DecidableEq

/-- `main` of apply_gemini.py (lines 68-124): list `articles_dir`, keep the
entries whose expected output `{stem}.txt` does not exist in `out_dir` and
whose suffix is `.pdf` (lines 94-101, one combined predicate applied once
per entry), log the two count lines, put the survivors on the FIFO queue in
order (lines 105-107) and drain it with the dispatch loop. -/
def apply_main (files : List PdfFile) (outE : String → Bool)
    (pb : PdfFile → Option String) (sb : PdfFile → Bool) : AGRun :=
  let articles :=
    files.filter (fun f => (!outE (f.stem ++ ".txt")) && (f.suffix == ".pdf"))
  let r := applyLoop pb sb articles
  { found := files, articles := articles,
    logs := [.foundMsg files.length, .needMsg articles.length],
    trace := r.1, abortedAt := r.2 }

end AG

namespace AGG

/-- `string.ascii_letters + string.digits` (aggregate_gemini_out.py,
line 25), as the character list underlying the Python set. -/
def allLettersAndDigits : List Char :=
  "abcdefghijklmnopqrstuvwxyzABCDEFGHIJKLMNOPQRSTUVWXYZ0123456789".data

/-- A Python value as it appears in the second rejection criterion: a set of
characters or an integer. -/
inductive PyVal
  | pyInt (n : Int)
  | pySet (s : List Char)

/-- Python `==` on those values: sets compare by extensionality, ints by
value, and a set never equals an int (`set.__eq__(int)` is
`NotImplemented`, so `==` falls back to identity, which is false). -/
def pyEq : PyVal → PyVal → Bool
  | .pyInt a, .pyInt b => a == b
  | .pySet a, .pySet b => a.all (fun c => b.contains c) && b.all (fun c => a.contains c)
  | _, _ => false

/-- Python set symmetric difference `set(line) ^ ALL_LETTERS_AND_DIGITS`
(membership view suffices for `pyEq`). -/
def symmDiff (a b : List Char) : List Char :=
  a.filter (fun c => !b.contains c) ++ b.filter (fun c => !a.contains c)

/-- First rejection criterion (line 33): `line.startswith("```")`. -/
def criterion1 (line : String) : Bool :=
  line.data.take 3 == "```".data

/-- Second rejection criterion (line 35):
`(set(line) ^ ALL_LETTERS_AND_DIGITS) == 0` — a set compared with the
integer literal `0`. -/
def criterion2 (line : String) : Bool :=
  pyEq (.pySet (symmDiff line.data allLettersAndDigits)) (.pyInt 0)

/-- The `rejection_criteria` list (lines 31-36). -/
def rejection_criteria : List (String → Bool) :=
  [criterion1, criterion2]

/-- `rejection_f` (lines 38-42): return `True` as soon as one criterion
accepts, else `False`. -/
def rejection_f (x : String) : Bool :=
  rejection_criteria.any (fun c => c x)

/-- Python `str.strip()` default whitespace characters. -/
def isPySpace (c : Char) : Bool :=
  c = ' ' || c = '\t' || c = '\n' || c = '\r' || c = '\x0b' || c = '\x0c'

/-- Python `line.strip()`: drop leading and trailing whitespace. -/
def pyStrip (s : String) : String :=
  String.mk (((s.data.dropWhile isPySpace).reverse.dropWhile isPySpace).reverse)

/-- `process_lines` (lines 29-44):
`[line.strip() for line in lines if not rejection_f(line)]`. -/
def process_lines (lines : List String) : List String :=
  (lines.filter (fun l => !rejection_f l)).map pyStrip

end AGG

namespace RL

/-- Modelled from the spec: the rate limiter behind
`ratelimitqueue.RateLimitQueue(calls=c, per=p)` is the third-party
`ratelimitqueue` dependency, whose code is not part of this repository's
sources.  Per the spec's RateLimiter contract, the limiter remembers the
grant times of the most recent `calls` permits (latest first) and grants
the next permit no earlier than `p` after the `c`-th most recent grant.
`rlStep` computes the grant time for a request arriving at time `req`
(times are naturals): immediate when fewer than `c` permits were granted
so far, otherwise `max req (g + p)` where `g` is the `c`-th most recent
grant time. -/
def rlStep (c p : Nat) (gs : List Nat) (req : Nat) : Nat :=
  match gs.get? (c - 1) with
  | none => req
  | some g => max req (g + p)

/-- Modelled from the spec: run the limiter over a request-time sequence,
threading the latest-first grant history `gs`; returns the grant times in
request order. -/
def rlRunAux (c p : Nat) (gs : List Nat) : List Nat → List Nat
  | [] => []
  | r :: rs => rlStep c p gs r :: rlRunAux c p (rlStep c p gs r :: gs) rs

/-- Modelled from the spec: grant times of a whole acquisition sequence,
starting from an empty history. -/
def rlGrants (c p : Nat) (reqs : List Nat) : List Nat :=
  rlRunAux c p [] reqs

/-- Whether a grant time falls in the half-open sliding window `(t, t+p]`. -/
def inWindow (t p g : Nat) : Bool :=
  decide (t < g) && decide (g ≤ t + p)

end RL

namespace DL

theorem enqueuePhase_aux (ex : String → Bool) (dois : List String) :
    ∀ qs sk : List String,
      dois.foldl
        (fun acc d =>
          if ex (outputFileName d) then (acc.1, acc.2 ++ [d]) else (acc.1 ++ [d], acc.2))
        (qs, sk)
      = (qs ++ dois.filter (fun d => !ex (outputFileName d)),
         sk ++ dois.filter (fun d => ex (outputFileName d))) := by
  induction dois with
  | nil => intro qs sk; simp
  | cons d l ih =>
    intro qs sk
    by_cases h : ex (outputFileName d)
    · simpa [List.foldl_cons, h, List.filter_cons] using ih qs (sk ++ [d])
    · simpa [List.foldl_cons, h, List.filter_cons] using ih (qs ++ [d]) sk

/-- The enqueue phase partitions the candidates: queued DOIs are exactly the
candidates whose expected output is absent, skipped DOIs exactly those whose
expected output exists, both in input order. -/
theorem enqueuePhase_spec (ex : String → Bool) (dois : List String) :
    enqueuePhase ex dois
      = (dois.filter (fun d => !ex (outputFileName d)),
         dois.filter (fun d => ex (outputFileName d))) := by
  simpa using enqueuePhase_aux ex dois [] []

/-- The dispatch loop writes exactly one audit record per queued DOI, in
queue (FIFO) order, whatever each item's behaviour is. -/
theorem dlLoop_logs_attempt (beh : String → DLRes) (q : List String) :
    (dlLoop beh q).2.map evDoi = q := by
  induction q with
  | nil => rfl
  | cons d l ih =>
    cases h : beh d <;> simp [dlLoop, h, evDoi, ih]

/-- Each queued DOI's audit record is a function of that DOI's behaviour
alone. -/
theorem dlLoop_logs_pointwise (beh : String → DLRes) (q : List String) :
    (dlLoop beh q).2
      = q.map (fun d =>
          match beh d with
          | .success => DLLog.successLog d
          | .failure => DLLog.failedLog d
          | .exn => DLLog.exnLog d) := by
  induction q with
  | nil => rfl
  | cons d l ih =>
    cases h : beh d <;> simp [dlLoop, h, ih]

/-- Results-list bookkeeping of the dispatch loop: one boolean per item
whose call returned, none for an item whose call raised. -/
theorem dlLoop_results_length (beh : String → DLRes) (q : List String) :
    (dlLoop beh q).1.length + q.countP (fun d => decide (beh d = DLRes.exn)) = q.length := by
  induction q with
  | nil => rfl
  | cons d l ih =>
    cases h : beh d <;>
      simp [dlLoop, h, List.countP_cons, ih.symm] <;> omega

theorem length_filter_split {α : Type} (p : α → Bool) (l : List α) :
    (l.filter (fun a => !p a)).length + (l.filter p).length = l.length := by
  induction l with
  | nil => rfl
  | cons a l ih => by_cases h : p a <;> simp [List.filter_cons, h] <;> omega

/-- C4: when the initial crossref enumeration returns a non-200 status, the
run aborts at once with the formatted triggering cause (`query_crossref`
raises `ValueError`, which escapes `main`): no DOI is ever dispatched, no
per-item audit record and no result is produced. -/
theorem C4_fatal_short_circuit (resp : CrossrefResp) (ex : String → Bool)
    (beh : String → DLRes) (h : resp.status ≠ 200) :
    download_main resp ex beh = .error (crossRefQueryFailed resp.status)
      ∧ attemptedOf (download_main resp ex beh) = []
      ∧ logsOf (download_main resp ex beh) = []
      ∧ resultsOf (download_main resp ex beh) = [] := by
  simp [download_main, h, attemptedOf, logsOf, resultsOf]

theorem C4_witness :
    ((500 : Nat) ≠ 200)
    ∧ (download_main ⟨500, [⟨"10.1/x", some ["T"]⟩]⟩ (fun _ => false) (fun _ => DLRes.success)
          = .error (crossRefQueryFailed 500)
        ∧ attemptedOf (download_main ⟨500, [⟨"10.1/x", some ["T"]⟩]⟩ (fun _ => false)
            (fun _ => DLRes.success)) = []
        ∧ logsOf (download_main ⟨500, [⟨"10.1/x", some ["T"]⟩]⟩ (fun _ => false)
            (fun _ => DLRes.success)) = []
        ∧ resultsOf (download_main ⟨500, [⟨"10.1/x", some ["T"]⟩]⟩ (fun _ => false)
            (fun _ => DLRes.success)) = []) :=
  ⟨by decide, C4_fatal_short_circuit ⟨500, [⟨"10.1/x", some ["T"]⟩]⟩ (fun _ => false)
    (fun _ => DLRes.success) (by decide)⟩

/-- C1 (as stated, counterexample): one candidate DOI, no existing output,
and the single dispatched call raises an exception: the exception handler
appends nothing to `results`, so successes + failures + skipped = 0 while
one candidate item was enumerated. -/
theorem C1_counterexample :
    nSuccessfulOf (download_main ⟨200, [⟨"10.1/x", some ["T"]⟩]⟩ (fun _ => false)
        (fun _ => DLRes.exn))
      + nFailedOf (download_main ⟨200, [⟨"10.1/x", some ["T"]⟩]⟩ (fun _ => false)
        (fun _ => DLRes.exn))
      + (skippedOf (download_main ⟨200, [⟨"10.1/x", some ["T"]⟩]⟩ (fun _ => false)
        (fun _ => DLRes.exn))).length = 0
    ∧ (doisOf (download_main ⟨200, [⟨"10.1/x", some ["T"]⟩]⟩ (fun _ => false)
        (fun _ => DLRes.exn))).length = 1 := by
  decide

/-- C1 (amended): for every run that reaches the dispatch loop, successes
plus failures plus skipped plus the number of dispatched items whose call
raised a (caught) exception equals the number of candidate items: an item
whose call raises contributes no success-or-failure outcome, only a log
line. -/
theorem C1_amended_completeness (resp : CrossrefResp) (ex : String → Bool)
    (beh : String → DLRes) (h : resp.status = 200) :
    nSuccessfulOf (download_main resp ex beh)
      + nFailedOf (download_main resp ex beh)
      + (skippedOf (download_main resp ex beh)).length
      + (queuedOf (download_main resp ex beh)).countP (fun d => decide (beh d = DLRes.exn))
      = (doisOf (download_main resp ex beh)).length := by
  simp only [download_main, h, if_pos, enqueuePhase_spec, if_true]
  simp only [nSuccessfulOf, nFailedOf, skippedOf, queuedOf, doisOf]
  have h1 := List.countP_le_length (fun b => b)
    (l := (dlLoop beh (((resp.items.filter titled).map Article.doi).filter
      (fun d => !ex (outputFileName d)))).1)
  have h2 := dlLoop_results_length beh
    (((resp.items.filter titled).map Article.doi).filter (fun d => !ex (outputFileName d)))
  have h3 := length_filter_split (fun d => ex (outputFileName d))
    ((resp.items.filter titled).map Article.doi)
  omega

theorem C1_amended_witness :
    ((200 : Nat) = 200)
    ∧ nSuccessfulOf (download_main ⟨200, [⟨"a", some ["T"]⟩]⟩ (fun _ => false)
          (fun _ => DLRes.exn))
        + nFailedOf (download_main ⟨200, [⟨"a", some ["T"]⟩]⟩ (fun _ => false)
          (fun _ => DLRes.exn))
        + (skippedOf (download_main ⟨200, [⟨"a", some ["T"]⟩]⟩ (fun _ => false)
          (fun _ => DLRes.exn))).length
        + (queuedOf (download_main ⟨200, [⟨"a", some ["T"]⟩]⟩ (fun _ => false)
          (fun _ => DLRes.exn))).countP
            (fun d => decide ((fun _ => DLRes.exn) d = DLRes.exn))
        = (doisOf (download_main ⟨200, [⟨"a", some ["T"]⟩]⟩ (fun _ => false)
          (fun _ => DLRes.exn))).length :=
  ⟨rfl, C1_amended_completeness ⟨200, [⟨"a", some ["T"]⟩]⟩ (fun _ => false)
    (fun _ => DLRes.exn) rfl⟩

/-- C9: the DOI-to-filename rule is not injective: the distinct DOIs
`10.1002/ab` and `10.1002_ab` map to the same filename, so their expected
output locations coincide and the completion check on that location cannot
tell them apart. -/
theorem C9_doiToFilename_not_injective :
    doiToFilename ("10.1002/ab") = doiToFilename ("10.1002_ab")
      ∧ ("10.1002/ab" : String) ≠ "10.1002_ab"
      ∧ outputFileName ("10.1002/ab") = outputFileName ("10.1002_ab") := by
  refine ⟨by decide, by decide, by decide⟩

end DL

namespace DL

/-- Whether an audit record is about a DOI other than `k`. -/
def notAbout (k : String) (e : DLLog) : Bool := !(evDoi e == k)

theorem notAbout_success (k d : String) :
    notAbout k (DLLog.successLog d) = !(d == k) := rfl

theorem notAbout_failed (k d : String) :
    notAbout k (DLLog.failedLog d) = !(d == k) := rfl

theorem notAbout_exn (k d : String) :
    notAbout k (DLLog.exnLog d) = !(d == k) := rfl

theorem dlLoop_filter_indep (beh1 beh2 : String → DLRes) (k : String) (q : List String)
    (hagree : ∀ d, d ≠ k → beh1 d = beh2 d) :
    ((dlLoop beh1 q).2.filter (notAbout k))
      = ((dlLoop beh2 q).2.filter (notAbout k)) := by
  induction q with
  | nil => rfl
  | cons d l ih =>
    by_cases hd : d = k
    · subst hd
      cases h1 : beh1 d <;> cases h2 : beh2 d <;>
        simp [dlLoop, h1, h2, List.filter_cons, notAbout_success, notAbout_failed,
          notAbout_exn, ih]
    · have h2 : beh2 d = beh1 d := (hagree d hd).symm
      cases h1 : beh1 d <;> rw [h1] at h2 <;>
        simp [dlLoop, h1, h2, List.filter_cons, notAbout_success, notAbout_failed,
          notAbout_exn, hd, ih]

end DL

namespace AG

theorem applyLoop_no_abort (pb : PdfFile → Option String) (sb : PdfFile → Bool)
    (hs : ∀ a, sb a = false) (l : List PdfFile) :
    (applyLoop pb sb l).2 = none ∧ (applyLoop pb sb l).1.map Prod.fst = l := by
  induction l with
  | nil => exact ⟨rfl, rfl⟩
  | cons a rest ih =>
    cases h : pb a <;> simp [applyLoop, h, hs a, ih.1, ih.2]

end AG

/-- C2: per-item failure isolation.  In download_articles (lines 200-208):
whatever each item's behaviour is — in particular when item `k` fails or
raises — the loop writes one audit record per queued DOI in order, so all
other items are still attempted, and the records of the items other than
`k` do not depend on `k`'s behaviour.  In apply_gemini (lines 110-123): a
processor exception on the item at the head of the queue is caught, logged
as that item's failure, and the loop continues on the remaining items
exactly as it would have without that item.  No per-item processing failure
escapes either loop. -/
theorem C2_isolation (beh1 beh2 : String → DL.DLRes) (k : String) (q : List String)
    (hk : beh1 k ≠ DL.DLRes.success)
    (hagree : ∀ d, d ≠ k → beh1 d = beh2 d)
    (pb : AG.PdfFile → Option String) (sb : AG.PdfFile → Bool)
    (ka : AG.PdfFile) (rest : List AG.PdfFile) (hka : pb ka = none) :
    (DL.dlLoop beh1 q).2.map DL.evDoi = q
    ∧ ((DL.dlLoop beh1 q).2.filter (DL.notAbout k))
        = ((DL.dlLoop beh2 q).2.filter (DL.notAbout k))
    ∧ AG.applyLoop pb sb (ka :: rest)
        = ((ka, AG.AEvent.failureLogged) :: (AG.applyLoop pb sb rest).1,
           (AG.applyLoop pb sb rest).2) :=
  ⟨DL.dlLoop_logs_attempt beh1 q,
   DL.dlLoop_filter_indep beh1 beh2 k q hagree,
   by simp [AG.applyLoop, hka]⟩

theorem C2_isolation_witness :
    (DL.dlLoop (fun d => if d == "k" then DL.DLRes.exn else DL.DLRes.success)
        ["a", "k", "b"]).2.map DL.evDoi = ["a", "k", "b"]
    ∧ ((DL.dlLoop (fun d => if d == "k" then DL.DLRes.exn else DL.DLRes.success)
          ["a", "k", "b"]).2.filter (DL.notAbout ("k")))
        = ((DL.dlLoop (fun _ => DL.DLRes.success)
          ["a", "k", "b"]).2.filter (DL.notAbout ("k")))
    ∧ AG.applyLoop (fun f => if f.stem == "ka" then none else some ("t"))
        (fun _ => false) [⟨"ka", ".pdf"⟩, ⟨"kb", ".pdf"⟩]
        = ((⟨"ka", ".pdf"⟩, AG.AEvent.failureLogged)
              :: (AG.applyLoop (fun f => if f.stem == "ka" then none else some ("t"))
                  (fun _ => false) [⟨"kb", ".pdf"⟩]).1,
           (AG.applyLoop (fun f => if f.stem == "ka" then none else some ("t"))
              (fun _ => false) [⟨"kb", ".pdf"⟩]).2) :=
  C2_isolation (fun d => if d == "k" then DL.DLRes.exn else DL.DLRes.success)
    (fun _ => DL.DLRes.success) "k" ["a", "k", "b"] (by decide)
    (by intro d hd; simp [hd])
    (fun f => if f.stem == "ka" then none else some ("t")) (fun _ => false)
    ⟨"ka", ".pdf"⟩ [⟨"kb", ".pdf"⟩] (by decide)

/-- C3 (as stated, counterexample): in apply_gemini the output write sits
outside the `try` block, so a storage failure on the first of two items
aborts the whole run: the trace stops at the first item and the second item
is never attempted, contradicting "recorded and the run continues". -/
theorem C3_counterexample :
    AG.applyLoop (fun _ => some ("out")) (fun f => f.stem == "a")
        [⟨"a", ".pdf"⟩, ⟨"b", ".pdf"⟩]
      = ([(⟨"a", ".pdf"⟩, AG.AEvent.storeAbort)], some ⟨"a", ".pdf"⟩) := by
  decide

/-- C3 (amended): the two scripts treat storage failures differently.  In
apply_gemini a failure while writing the produced text aborts the run at
that item (the write is outside the per-item `try`).  In download_articles
the artifact write happens inside `download_article`, whose call is inside
the per-item `try` in `main`, so a storage exception there is caught and
logged and the loop continues through the remaining items (contributing no
success-or-failure result). -/
theorem C3_amended (pb : AG.PdfFile → Option String) (sb : AG.PdfFile → Bool)
    (a : AG.PdfFile) (t : String) (rest : List AG.PdfFile)
    (hpa : pb a = some t) (hsa : sb a = true)
    (beh : String → DL.DLRes) (k : String) (q : List String)
    (hk : beh k = DL.DLRes.exn) :
    AG.applyLoop pb sb (a :: rest) = ([(a, AG.AEvent.storeAbort)], some a)
    ∧ DL.dlLoop beh (k :: q) = ((DL.dlLoop beh q).1, .exnLog k :: (DL.dlLoop beh q).2) :=
  ⟨by simp [AG.applyLoop, hpa, hsa], by simp [DL.dlLoop, hk]⟩

theorem C3_amended_witness :
    AG.applyLoop (fun _ => some ("txt")) (fun f => f.stem == "sa")
        [⟨"sa", ".pdf"⟩, ⟨"sb", ".pdf"⟩]
      = ([(⟨"sa", ".pdf"⟩, AG.AEvent.storeAbort)], some ⟨"sa", ".pdf"⟩)
    ∧ DL.dlLoop (fun d => if d == "w" then DL.DLRes.exn else DL.DLRes.success)
        ["w", "z"]
      = ((DL.dlLoop (fun d => if d == "w" then DL.DLRes.exn else DL.DLRes.success)
            ["z"]).1,
         .exnLog ("w")
           :: (DL.dlLoop (fun d => if d == "w" then DL.DLRes.exn else DL.DLRes.success)
            ["z"]).2) :=
  C3_amended (fun _ => some ("txt")) (fun f => f.stem == "sa") ⟨"sa", ".pdf"⟩ "txt"
    [⟨"sb", ".pdf"⟩] (by decide) (by decide)
    (fun d => if d == "w" then DL.DLRes.exn else DL.DLRes.success) "w" ["z"] (by decide)

theorem filter_and_comm {α : Type} (p q : α → Bool) (l : List α) :
    l.filter (fun a => p a && q a) = (l.filter q).filter p := by
  induction l with
  | nil => rfl
  | cons a t ih =>
    rw [List.filter_cons, List.filter_cons]
    cases hq : q a <;> cases hp : p a <;>
      simp only [hq, hp, Bool.and_true, Bool.and_false, Bool.true_and, Bool.false_and,
        Bool.false_eq_true, if_false, if_true, ih, List.filter_cons]

/-- C5 (as stated, counterexample): in apply_gemini a PDF whose expected
output already exists is excluded before enqueue, but nothing records it as
skipped: the whole observable run record for one such file is the two
aggregate count lines, an empty item list, and an empty trace — there is no
per-item skip record. -/
theorem C5_counterexample :
    AG.apply_main [⟨"a", ".pdf"⟩] (fun _ => true) (fun _ => some ("t")) (fun _ => false)
      = { found := [⟨"a", ".pdf"⟩], articles := [],
          logs := [.foundMsg 1, .needMsg 0], trace := [], abortedAt := none } := by
  decide

/-- C5 (amended): the completion filter is applied once per candidate before
enqueue, using the deterministic identity-to-output-path naming rule; an
item whose expected output exists is never enqueued (and in
download_articles it is logged as skipped, while apply_gemini keeps no
per-item record of it); an item whose expected output does not exist (and,
in apply_gemini, has the `.pdf` suffix) is enqueued.  In download_articles
the dispatched DOIs are exactly the queued ones. -/
theorem C5_amended (resp : DL.CrossrefResp) (ex : String → Bool)
    (beh : String → DL.DLRes) (h : resp.status = 200)
    (files : List AG.PdfFile) (outE : String → Bool)
    (pb : AG.PdfFile → Option String) (sb : AG.PdfFile → Bool) :
    DL.queuedOf (DL.download_main resp ex beh)
        = (DL.doisOf (DL.download_main resp ex beh)).filter
            (fun d => !ex (DL.outputFileName d))
    ∧ DL.skippedOf (DL.download_main resp ex beh)
        = (DL.doisOf (DL.download_main resp ex beh)).filter
            (fun d => ex (DL.outputFileName d))
    ∧ (DL.queuedOf (DL.download_main resp ex beh)).length
        + (DL.skippedOf (DL.download_main resp ex beh)).length
        = (DL.doisOf (DL.download_main resp ex beh)).length
    ∧ DL.attemptedOf (DL.download_main resp ex beh)
        = DL.queuedOf (DL.download_main resp ex beh)
    ∧ (AG.apply_main files outE pb sb).articles
        = (files.filter (fun f => f.suffix == ".pdf")).filter
            (fun f => !outE (f.stem ++ ".txt")) := by
  refine ⟨?_, ?_, ?_, ?_, ?_⟩
  · simp [DL.download_main, h, DL.queuedOf, DL.doisOf, DL.enqueuePhase_spec]
  · simp [DL.download_main, h, DL.skippedOf, DL.doisOf, DL.enqueuePhase_spec]
  · simp only [DL.download_main, h, if_true, DL.queuedOf, DL.skippedOf, DL.doisOf,
      DL.enqueuePhase_spec]
    exact DL.length_filter_split (fun d => ex (DL.outputFileName d)) _
  · simp [DL.download_main, h, DL.attemptedOf, DL.logsOf, DL.queuedOf,
      DL.enqueuePhase_spec, DL.dlLoop_logs_attempt]
  · simp only [AG.apply_main]
    exact filter_and_comm (fun f => !outE (f.stem ++ ".txt"))
      (fun f => f.suffix == ".pdf") files

theorem C5_amended_witness :
    DL.queuedOf (DL.download_main ⟨200, [⟨"u", some ["T"]⟩, ⟨"v", some ["T"]⟩]⟩
        (fun s => s == "v.pdf") (fun _ => DL.DLRes.success))
        = (DL.doisOf (DL.download_main ⟨200, [⟨"u", some ["T"]⟩, ⟨"v", some ["T"]⟩]⟩
            (fun s => s == "v.pdf") (fun _ => DL.DLRes.success))).filter
            (fun d => !(DL.outputFileName d == "v.pdf"))
    ∧ DL.skippedOf (DL.download_main ⟨200, [⟨"u", some ["T"]⟩, ⟨"v", some ["T"]⟩]⟩
        (fun s => s == "v.pdf") (fun _ => DL.DLRes.success))
        = (DL.doisOf (DL.download_main ⟨200, [⟨"u", some ["T"]⟩, ⟨"v", some ["T"]⟩]⟩
            (fun s => s == "v.pdf") (fun _ => DL.DLRes.success))).filter
            (fun d => DL.outputFileName d == "v.pdf")
    ∧ (DL.queuedOf (DL.download_main ⟨200, [⟨"u", some ["T"]⟩, ⟨"v", some ["T"]⟩]⟩
          (fun s => s == "v.pdf") (fun _ => DL.DLRes.success))).length
        + (DL.skippedOf (DL.download_main ⟨200, [⟨"u", some ["T"]⟩, ⟨"v", some ["T"]⟩]⟩
          (fun s => s == "v.pdf") (fun _ => DL.DLRes.success))).length
        = (DL.doisOf (DL.download_main ⟨200, [⟨"u", some ["T"]⟩, ⟨"v", some ["T"]⟩]⟩
          (fun s => s == "v.pdf") (fun _ => DL.DLRes.success))).length
    ∧ DL.attemptedOf (DL.download_main ⟨200, [⟨"u", some ["T"]⟩, ⟨"v", some ["T"]⟩]⟩
        (fun s => s == "v.pdf") (fun _ => DL.DLRes.success))
        = DL.queuedOf (DL.download_main ⟨200, [⟨"u", some ["T"]⟩, ⟨"v", some ["T"]⟩]⟩
        (fun s => s == "v.pdf") (fun _ => DL.DLRes.success))
    ∧ (AG.apply_main [⟨"w", ".pdf"⟩, ⟨"n", ".txt"⟩] (fun _ => false)
        (fun _ => some ("t")) (fun _ => false)).articles
        = ([⟨"w", ".pdf"⟩, ⟨"n", ".txt"⟩].filter
            (fun f => f.suffix == ".pdf")).filter
            (fun f => !(false : Bool)) :=
  C5_amended ⟨200, [⟨"u", some ["T"]⟩, ⟨"v", some ["T"]⟩]⟩ (fun s => s == "v.pdf")
    (fun _ => DL.DLRes.success) rfl [⟨"w", ".pdf"⟩, ⟨"n", ".txt"⟩] (fun _ => false)
    (fun _ => some ("t")) (fun _ => false)

/-- C7 (as stated, counterexample): a run with two candidates, one skipped
and one downloaded successfully, prints only the success line: the final
report is a single line stating the success count; the zero failure count
and the skipped count are not reported. -/
theorem C7_counterexample :
    DL.reportOf (DL.download_main ⟨200, [⟨"a", some ["T"]⟩, ⟨"b", some ["T"]⟩]⟩
        (fun s => s == "b.pdf") (fun _ => DL.DLRes.success))
      = [DL.msgNSuccessful 1]
    ∧ (DL.skippedOf (DL.download_main ⟨200, [⟨"a", some ["T"]⟩, ⟨"b", some ["T"]⟩]⟩
        (fun s => s == "b.pdf") (fun _ => DL.DLRes.success))).length = 1
    ∧ DL.nFailedOf (DL.download_main ⟨200, [⟨"a", some ["T"]⟩, ⟨"b", some ["T"]⟩]⟩
        (fun s => s == "b.pdf") (fun _ => DL.DLRes.success)) = 0 := by
  decide

/-- C7 (amended): every download_articles run that reaches the dispatch loop
terminates normally and prints the success-count line; the failure-count
line is printed exactly when the failure count is non-zero; the skipped
count is never part of the final report.  An apply_gemini run with no
storage failure terminates normally whatever the per-item processor
failures are, and apply_gemini prints no final count report at all (its run
record carries only the two start-of-run aggregate log lines). -/
theorem C7_amended (resp : DL.CrossrefResp) (ex : String → Bool)
    (beh : String → DL.DLRes) (h : resp.status = 200)
    (files : List AG.PdfFile) (outE : String → Bool)
    (pb : AG.PdfFile → Option String) (sb : AG.PdfFile → Bool)
    (hs : ∀ f, sb f = false) :
    DL.reportOf (DL.download_main resp ex beh)
      = [DL.msgNSuccessful (DL.nSuccessfulOf (DL.download_main resp ex beh))]
        ++ (if DL.nFailedOf (DL.download_main resp ex beh) = 0 then []
            else [DL.msgNUnsuccessful (DL.nFailedOf (DL.download_main resp ex beh))])
    ∧ DL.okRun (DL.download_main resp ex beh) = true
    ∧ (AG.apply_main files outE pb sb).abortedAt = none
    ∧ (AG.apply_main files outE pb sb).logs
        = [.foundMsg files.length, .needMsg (AG.apply_main files outE pb sb).articles.length] := by
  refine ⟨?_, ?_, ?_, ?_⟩
  · simp [DL.download_main, h, DL.reportOf, DL.nSuccessfulOf, DL.nFailedOf]
  · simp [DL.download_main, h, DL.okRun]
  · simp only [AG.apply_main]
    exact (AG.applyLoop_no_abort pb sb hs _).1
  · simp [AG.apply_main]

theorem C7_amended_witness :
    DL.reportOf (DL.download_main ⟨200, [⟨"f", some ["T"]⟩]⟩ (fun _ => false)
        (fun _ => DL.DLRes.failure))
      = [DL.msgNSuccessful (DL.nSuccessfulOf (DL.download_main ⟨200, [⟨"f", some ["T"]⟩]⟩
          (fun _ => false) (fun _ => DL.DLRes.failure)))]
        ++ (if DL.nFailedOf (DL.download_main ⟨200, [⟨"f", some ["T"]⟩]⟩ (fun _ => false)
              (fun _ => DL.DLRes.failure)) = 0 then []
            else [DL.msgNUnsuccessful (DL.nFailedOf (DL.download_main ⟨200, [⟨"f", some ["T"]⟩]⟩
              (fun _ => false) (fun _ => DL.DLRes.failure)))])
    ∧ DL.okRun (DL.download_main ⟨200, [⟨"f", some ["T"]⟩]⟩ (fun _ => false)
        (fun _ => DL.DLRes.failure)) = true
    ∧ (AG.apply_main [⟨"g", ".pdf"⟩] (fun _ => false) (fun _ => none)
        (fun _ => false)).abortedAt = none
    ∧ (AG.apply_main [⟨"g", ".pdf"⟩] (fun _ => false) (fun _ => none)
        (fun _ => false)).logs
        = [.foundMsg [(⟨"g", ".pdf"⟩ : AG.PdfFile)].length,
           .needMsg (AG.apply_main [⟨"g", ".pdf"⟩] (fun _ => false) (fun _ => none)
             (fun _ => false)).articles.length] :=
  C7_amended ⟨200, [⟨"f", some ["T"]⟩]⟩ (fun _ => false) (fun _ => DL.DLRes.failure) rfl
    [⟨"g", ".pdf"⟩] (fun _ => false) (fun _ => none) (fun _ => false) (fun _ => rfl)

/-- C8 (as stated, counterexample): in apply_gemini, a storage failure on
the first of two surviving items aborts the run, so the sequence of items
actually dispatched to the processor is a strict prefix of — not equal to —
the filtered enumeration. -/
theorem C8_counterexample :
    ((AG.apply_main [⟨"x", ".pdf"⟩, ⟨"y", ".pdf"⟩] (fun _ => false) (fun _ => some ("t"))
        (fun f => f.stem == "x")).trace.map Prod.fst)
      = [⟨"x", ".pdf"⟩]
    ∧ (AG.apply_main [⟨"x", ".pdf"⟩, ⟨"y", ".pdf"⟩] (fun _ => false) (fun _ => some ("t"))
        (fun f => f.stem == "x")).articles
      = [⟨"x", ".pdf"⟩, ⟨"y", ".pdf"⟩] := by
  decide

/-- C8 (amended): in download_articles the dispatched sequence always equals
the completion-filter survivors of the enumeration, in input order, and is
a subsequence of the enumeration (single-worker FIFO dispatch).  In
apply_gemini the same holds whenever no storage failure aborts the run; an
aborted run dispatches a prefix of the survivors (cf. C3). -/
theorem C8_amended (resp : DL.CrossrefResp) (ex : String → Bool)
    (beh : String → DL.DLRes) (h : resp.status = 200)
    (files : List AG.PdfFile) (outE : String → Bool)
    (pb : AG.PdfFile → Option String) (sb : AG.PdfFile → Bool)
    (hs : ∀ f, sb f = false) :
    DL.attemptedOf (DL.download_main resp ex beh)
        = (DL.doisOf (DL.download_main resp ex beh)).filter
            (fun d => !ex (DL.outputFileName d))
    ∧ List.Sublist (DL.attemptedOf (DL.download_main resp ex beh))
        (DL.doisOf (DL.download_main resp ex beh))
    ∧ (AG.apply_main files outE pb sb).trace.map Prod.fst
        = (AG.apply_main files outE pb sb).articles := by
  have h1 : DL.attemptedOf (DL.download_main resp ex beh)
      = (DL.doisOf (DL.download_main resp ex beh)).filter
          (fun d => !ex (DL.outputFileName d)) := by
    simp [DL.download_main, h, DL.attemptedOf, DL.logsOf, DL.doisOf,
      DL.enqueuePhase_spec, DL.dlLoop_logs_attempt]
  refine ⟨h1, ?_, ?_⟩
  · rw [h1]; exact List.filter_sublist _
  · simp only [AG.apply_main]
    exact (AG.applyLoop_no_abort pb sb hs _).2

theorem C8_amended_witness :
    DL.attemptedOf (DL.download_main ⟨200, [⟨"m", some ["T"]⟩, ⟨"n", some ["T"]⟩]⟩
        (fun s => s == "n.pdf") (fun _ => DL.DLRes.failure))
        = (DL.doisOf (DL.download_main ⟨200, [⟨"m", some ["T"]⟩, ⟨"n", some ["T"]⟩]⟩
            (fun s => s == "n.pdf") (fun _ => DL.DLRes.failure))).filter
            (fun d => !(DL.outputFileName d == "n.pdf"))
    ∧ List.Sublist
        (DL.attemptedOf (DL.download_main ⟨200, [⟨"m", some ["T"]⟩, ⟨"n", some ["T"]⟩]⟩
          (fun s => s == "n.pdf") (fun _ => DL.DLRes.failure)))
        (DL.doisOf (DL.download_main ⟨200, [⟨"m", some ["T"]⟩, ⟨"n", some ["T"]⟩]⟩
          (fun s => s == "n.pdf") (fun _ => DL.DLRes.failure)))
    ∧ (AG.apply_main [⟨"q", ".pdf"⟩, ⟨"r", ".pdf"⟩] (fun _ => false) (fun _ => some ("t"))
        (fun _ => false)).trace.map Prod.fst
        = (AG.apply_main [⟨"q", ".pdf"⟩, ⟨"r", ".pdf"⟩] (fun _ => false) (fun _ => some ("t"))
        (fun _ => false)).articles :=
  C8_amended ⟨200, [⟨"m", some ["T"]⟩, ⟨"n", some ["T"]⟩]⟩ (fun s => s == "n.pdf")
    (fun _ => DL.DLRes.failure) rfl [⟨"q", ".pdf"⟩, ⟨"r", ".pdf"⟩] (fun _ => false)
    (fun _ => some ("t")) (fun _ => false) (fun _ => rfl)

namespace AGG

theorem criterion2_false (line : String) : criterion2 line = false := rfl

/-- C10: the second rejection criterion compares a set with the integer 0
and therefore never rejects any line, so `process_lines` returns exactly
the stripped lines that do not start with three backticks. -/
theorem C10_process_lines_spec :
    (∀ line : String, criterion2 line = false)
    ∧ ∀ lines : List String,
        process_lines lines
          = (lines.filter (fun l => !(l.data.take 3 == "```".data))).map pyStrip := by
  refine ⟨criterion2_false, ?_⟩
  intro lines
  unfold process_lines
  congr 1
  apply List.filter_congr
  intro l _
  simp [rejection_f, rejection_criteria, criterion2_false, criterion1]

end AGG

namespace RL

theorem rlRunAux_state_gap (c p : Nat) :
    ∀ (rs gs : List Nat) (j x b : Nat), j < c →
      gs.get? (c - 1 - j) = some x →
      (rlRunAux c p gs rs).get? j = some b →
      x + p ≤ b := by
  intro rs
  induction rs with
  | nil => intro gs j x b hj hx hb; simp [rlRunAux] at hb
  | cons r rs ih =>
    intro gs j x b hj hx hb
    cases j with
    | zero =>
      simp only [Nat.sub_zero] at hx
      simp only [rlRunAux, List.get?_cons_zero, Option.some.injEq] at hb
      subst hb
      simp only [rlStep, hx]
      exact le_max_right _ _
    | succ j' =>
      simp only [rlRunAux, List.get?_cons_succ] at hb
      have hj' : j' < c := Nat.lt_of_succ_lt hj
      have hm : c - 1 - j' = (c - 1 - (j' + 1)) + 1 := by omega
      refine ih (rlStep c p gs r :: gs) j' x b hj' ?_ hb
      rw [hm, List.get?_cons_succ]
      exact hx

theorem rlRunAux_gap (c p : Nat) (hc : 1 ≤ c) :
    ∀ (rs gs : List Nat) (i a b : Nat),
      (rlRunAux c p gs rs).get? i = some a →
      (rlRunAux c p gs rs).get? (i + c) = some b →
      a + p ≤ b := by
  intro rs
  induction rs with
  | nil => intro gs i a b ha hb; simp [rlRunAux] at ha
  | cons r rs ih =>
    intro gs i a b ha hb
    cases i with
    | zero =>
      simp only [rlRunAux, List.get?_cons_zero, Option.some.injEq] at ha
      subst ha
      have hcc : (0 : Nat) + c = (c - 1) + 1 := by omega
      rw [hcc] at hb
      simp only [rlRunAux, List.get?_cons_succ] at hb
      refine rlRunAux_state_gap c p rs (rlStep c p gs r :: gs) (c - 1) _ b ?_ ?_ hb
      · omega
      · have h0 : c - 1 - (c - 1) = 0 := by omega
        rw [h0, List.get?_cons_zero]
    | succ i' =>
      simp only [rlRunAux, List.get?_cons_succ] at ha
      have hib : i' + 1 + c = (i' + c) + 1 := by omega
      rw [hib] at hb
      simp only [rlRunAux, List.get?_cons_succ] at hb
      exact ih (rlStep c p gs r :: gs) i' a b ha hb

theorem rlStep_mono (c p : Nat) (gs : List Nat) (r r' : Nat) (hr : r ≤ r')
    (hgs : gs.Pairwise (fun a b => b ≤ a)) :
    rlStep c p gs r ≤ rlStep c p (rlStep c p gs r :: gs) r' := by
  cases hm : c - 1 with
  | zero =>
    conv_rhs => rw [rlStep, hm]
    simp only [List.get?_cons_zero]
    calc rlStep c p gs r ≤ rlStep c p gs r + p := Nat.le_add_right _ _
      _ ≤ max r' (rlStep c p gs r + p) := le_max_right _ _
  | succ m =>
    conv_rhs => rw [rlStep, hm]
    simp only [List.get?_cons_succ]
    cases hy : gs.get? m with
    | none =>
      have hx : gs.get? (m + 1) = none := by
        rw [List.get?_eq_none] at hy ⊢
        omega
      rw [rlStep, hm, hx]
      exact hr
    | some y =>
      cases hx : gs.get? (m + 1) with
      | none =>
        rw [rlStep, hm, hx]
        exact le_trans hr (le_max_left _ _)
      | some x =>
        rw [rlStep, hm, hx]
        have hxy : x ≤ y := by
          rcases List.get?_eq_some.mp hy with ⟨hmy, rfl⟩
          rcases List.get?_eq_some.mp hx with ⟨hmx, rfl⟩
          exact List.pairwise_iff_get.mp hgs ⟨m, hmy⟩ ⟨m + 1, hmx⟩ (by simp)
        exact max_le_max hr (Nat.add_le_add_right hxy p)

theorem rlRunAux_chain (c p : Nat) :
    ∀ (rs gs : List Nat), List.Chain' (· ≤ ·) rs →
      gs.Pairwise (fun a b => b ≤ a) →
      (∀ x ∈ gs.head?, ∀ r ∈ rs.head?, x ≤ rlStep c p gs r) →
      List.Chain' (· ≤ ·) (rlRunAux c p gs rs) := by
  intro rs
  induction rs with
  | nil => intro gs _ _ _; exact List.chain'_nil
  | cons r rs ih =>
    intro gs hchain hgs hHead
    have hrs : List.Chain' (· ≤ ·) rs := (List.chain'_cons'.mp hchain).2
    have hrel : ∀ y ∈ rs.head?, r ≤ y := (List.chain'_cons'.mp hchain).1
    have hgGe : ∀ y ∈ gs, y ≤ rlStep c p gs r := by
      cases gs with
      | nil => intro y hy; simp at hy
      | cons h tgs =>
        intro y hy
        have hh : h ≤ rlStep c p (h :: tgs) r := hHead h (by simp) r (by simp)
        rcases List.mem_cons.mp hy with rfl | hyt
        · exact hh
        · exact le_trans ((List.pairwise_cons.mp hgs).1 y hyt) hh
    have hpair : (rlStep c p gs r :: gs).Pairwise (fun a b => b ≤ a) :=
      List.pairwise_cons.mpr ⟨hgGe, hgs⟩
    refine List.chain'_cons'.mpr ⟨?_, ?_⟩
    · intro b hb
      cases rs with
      | nil => simp [rlRunAux] at hb
      | cons r' rs' =>
        simp only [rlRunAux, List.head?_cons, Option.mem_def, Option.some.injEq] at hb
        subst hb
        exact rlStep_mono c p gs r r' (hrel r' (by simp)) hgs
    · refine ih (rlStep c p gs r :: gs) hrs hpair ?_
      intro x hx r' hr'
      simp only [List.head?_cons, Option.mem_def, Option.some.injEq] at hx
      subst hx
      exact rlStep_mono c p gs r r' (hrel r' hr') hgs

theorem pairwise_le_of_get? (L : List Nat) (h : L.Pairwise (· ≤ ·)) :
    ∀ (i j a b : Nat), i ≤ j → L.get? i = some a → L.get? j = some b → a ≤ b := by
  intro i j a b hij ha hb
  rcases List.get?_eq_some.mp ha with ⟨hi, rfl⟩
  rcases List.get?_eq_some.mp hb with ⟨hj, rfl⟩
  rcases Nat.eq_or_lt_of_le hij with rfl | hlt
  · exact le_of_eq (by congr)
  · exact List.pairwise_iff_get.mp h ⟨i, hi⟩ ⟨j, hj⟩ hlt

theorem window_count_le (c p t : Nat) :
    ∀ (L : List Nat), L.Pairwise (· ≤ ·) →
      (∀ i a b, L.get? i = some a → L.get? (i + c) = some b → a + p ≤ b) →
      L.countP (inWindow t p) ≤ c := by
  intro L
  induction L with
  | nil => intro _ _; simp
  | cons x xs ih =>
    intro hpair hgap
    by_cases hx : inWindow t p x = true
    · have hxw : t < x ∧ x ≤ t + p := by
        simpa only [inWindow, Bool.and_eq_true, decide_eq_true_eq] using hx
      have hzero : ∀ g ∈ (x :: xs).drop c, ¬ inWindow t p g = true := by
        intro g hg
        rcases List.mem_iff_get?.mp hg with ⟨k, hk⟩
        rw [List.get?_drop] at hk
        have hlen : c + k < (x :: xs).length := (List.get?_eq_some.mp hk).1
        have hcl : c < (x :: xs).length := by omega
        have hzc : (x :: xs).get? c = some ((x :: xs).get ⟨c, hcl⟩) :=
          List.get?_eq_get hcl
        have hxz : x + p ≤ (x :: xs).get ⟨c, hcl⟩ := by
          refine hgap 0 x _ rfl ?_
          simpa using hzc
        have hzg : (x :: xs).get ⟨c, hcl⟩ ≤ g :=
          pairwise_le_of_get? _ hpair c (c + k) _ g (Nat.le_add_right _ _) hzc hk
        simp only [inWindow, Bool.and_eq_true, decide_eq_true_eq, not_and, not_le]
        intro _
        omega
      calc (x :: xs).countP (inWindow t p)
          = ((x :: xs).take c ++ (x :: xs).drop c).countP (inWindow t p) := by
            rw [List.take_append_drop]
        _ = ((x :: xs).take c).countP (inWindow t p)
            + ((x :: xs).drop c).countP (inWindow t p) := List.countP_append _ _ _
        _ ≤ c + 0 := by
            refine Nat.add_le_add ?_ ?_
            · exact le_trans (List.countP_le_length _) (List.length_take_le _ _)
            · exact Nat.le_of_eq (List.countP_eq_zero.mpr hzero)
        _ = c := Nat.add_zero c
    · have hcount : (x :: xs).countP (inWindow t p) = xs.countP (inWindow t p) := by
        rw [List.countP_cons]
        simp [hx]
      rw [hcount]
      refine ih (List.pairwise_cons.mp hpair).2 ?_
      intro i a b ha hb
      exact hgap (i + 1) a b (by simpa using ha)
        (by rw [Nat.add_right_comm]; simpa using hb)

/-- C6: rate bound of the modelled limiter.  For every policy of `c ≥ 1`
permits per window of length `p`, and every nondecreasing sequence of
request times, the granted permit times contain at most `c` grants in any
sliding window `(t, t+p]`.  The limiter itself is modelled from the spec
(see `rlStep`): the `ratelimitqueue` implementation is not part of this
repository's sources. -/
theorem C6_rate_window_bound (c p : Nat) (hc : 1 ≤ c) (reqs : List Nat)
    (hreq : List.Pairwise (· ≤ ·) reqs) (t : Nat) :
    (rlGrants c p reqs).countP (inWindow t p) ≤ c := by
  have hchain : List.Chain' (· ≤ ·) (rlRunAux c p [] reqs) :=
    rlRunAux_chain c p reqs [] (List.chain'_iff_pairwise.mpr hreq) (by simp) (by simp)
  have hpair : (rlRunAux c p [] reqs).Pairwise (· ≤ ·) :=
    List.chain'_iff_pairwise.mp hchain
  exact window_count_le c p t _ hpair
    (fun i a b ha hb => rlRunAux_gap c p hc reqs [] i a b ha hb)

theorem C6_rate_window_bound_witness :
    ((1 : Nat) ≤ 2 ∧ List.Pairwise (· ≤ ·) [0, 0, 0, 0, 0])
    ∧ (rlGrants 2 1 [0, 0, 0, 0, 0]).countP (inWindow 0 1) ≤ 2 :=
  ⟨⟨by decide, by decide⟩,
   C6_rate_window_bound 2 1 (by decide) [0, 0, 0, 0, 0] (by decide) 0⟩

end RL
